import Mathlib

/-!
Shallow embedding of the episode-selection and queue-generation engine of a
TV-episode tracker (helpers file: `getNextUnwatchedEpisode`,
`pickRandomShowWithUnwatchedEpisodes`, `pickRandomEpisode`,
`generateCouchPotatoQueue`, `hasUnwatchedEpisodes`).

Modelling conventions:
* JavaScript numbers used as minutes/seasons/episode numbers are modelled as
  `Int`; ids (opaque strings compared with `===`) are modelled as `Nat`.
* `Math.floor(Math.random() * len)` always yields an index in `[0, len)`;
  a pick is parametrised by a draw `r : Nat` and uses index `r % len`
  (identity on the indices the real source can produce).
* The builder's `while` loop has no syntactic bound, so the embedding is
  fuel-indexed; `none` models a run that does not finish within the fuel.
  `cpqFuel` is enough fuel for every run the specification describes.
* The mutable store is made explicit: the builder's state carries the
  caller's array (`caller`) and the deep-copied snapshot (`snapshot`); the
  loop writes only to the snapshot, mirroring the source where every write
  goes through `showsCopy`.
-/

/-- An episode record: id, season, episode number, title, runtime, watched. -/
structure Episode where
  id : Nat
  season : Int
  episodeNumber : Int
  title : String
  runtime : Int
  watched : Bool
deriving DecidableEq, Repr

/-- A show record: id, title and its episode array. -/
structure Show where
  id : Nat
  title : String
  episodes : List Episode
deriving DecidableEq, Repr

/-- The comparator `(a, b) => a.season !== b.season ? a.season - b.season
: a.episodeNumber - b.episodeNumber` as the induced `≤` test
(`cmp(a,b) <= 0`). -/
def epLE (a b : Episode) : Bool :=
  if a.season = b.season then decide (a.episodeNumber ≤ b.episodeNumber)
  else decide (a.season < b.season)

/-- The comparator's order as a relation, for sorting. -/
def epLEr (a b : Episode) : Prop := epLE a b = true

instance : DecidableRel epLEr := fun a b => instDecidableEqBool (epLE a b) true

/-- The comparator order, spelled out. -/
lemma epLE_iff (a b : Episode) :
    epLE a b = true ↔
      a.season < b.season ∨ (a.season = b.season ∧ a.episodeNumber ≤ b.episodeNumber) := by
  simp only [epLE]
  by_cases h : a.season = b.season <;> simp [h]

instance : IsTotal Episode epLEr where
  total a b := by
    simp only [epLEr, epLE_iff]
    omega

instance : IsTrans Episode epLEr where
  trans a b c hab hbc := by
    simp only [epLEr, epLE_iff] at hab hbc ⊢
    omega

/-- `getNextUnwatchedEpisode(show)`: sort a copy of the episodes by
(season, episode number) and return the first unwatched one, else null.
`Array.prototype.sort` is a stable sort, and a stable sort's output is
uniquely determined by the input and the comparator's total preorder, so the
(stable) insertion sort used here returns exactly the source's array. -/
def getNextUnwatchedEpisode (s : Show) : Option Episode :=
  if s.episodes.isEmpty then none
  else (List.insertionSort epLEr s.episodes).find? (fun ep => !ep.watched)

/-- The eligibility test `show.episodes && show.episodes.some(ep => !ep.watched)`. -/
def showHasUnwatched (s : Show) : Bool :=
  s.episodes.any (fun ep => !ep.watched)

/-- `pickRandomShowWithUnwatchedEpisodes(shows)`: filter to eligible shows and
index the filtered array with the uniform draw `r`. -/
def pickRandomShowWithUnwatchedEpisodes (r : Nat) (shows : List Show) : Option Show :=
  if shows.isEmpty then none
  else
    let showsWithUnwatched := shows.filter showHasUnwatched
    if showsWithUnwatched.isEmpty then none
    else showsWithUnwatched[r % showsWithUnwatched.length]?

/-- `pickRandomEpisode(shows)`: pick an eligible show, then its next
unwatched episode. -/
def pickRandomEpisode (r : Nat) (shows : List Show) : Option (Show × Episode) :=
  match pickRandomShowWithUnwatchedEpisodes r shows with
  | none => none
  | some s =>
    match getNextUnwatchedEpisode s with
    | none => none
    | some e => some (s, e)

/-- `hasUnwatchedEpisodes(shows)`. -/
def hasUnwatchedEpisodes (shows : List Show) : Bool :=
  if shows.isEmpty then false
  else shows.any showHasUnwatched

/-- One entry of the generated queue (denormalised projection of a pick). -/
structure QueueEntry where
  showId : Nat
  showTitle : String
  episodeId : Nat
  season : Int
  episodeNumber : Int
  episodeTitle : String
  runtime : Int
  watched : Bool
deriving DecidableEq, Repr

/-- The object pushed onto `queue` for a picked `{show, episode}`. -/
def mkQueueEntry (s : Show) (e : Episode) : QueueEntry :=
  { showId := s.id, showTitle := s.title, episodeId := e.id, season := e.season
    episodeNumber := e.episodeNumber, episodeTitle := e.title
    runtime := e.runtime, watched := false }

/-- The queue object returned by `generateCouchPotatoQueue`. -/
structure Queue where
  episodes : List QueueEntry
  totalRuntime : Int
  targetRuntime : Int
deriving DecidableEq, Repr

/-- `JSON.parse(JSON.stringify(episode))`: a fresh record with the same
enumerable fields. -/
def deepCopyEpisode (e : Episode) : Episode :=
  { id := e.id, season := e.season, episodeNumber := e.episodeNumber
    title := e.title, runtime := e.runtime, watched := e.watched }

/-- `JSON.parse(JSON.stringify(show))`. -/
def deepCopyShow (s : Show) : Show :=
  { id := s.id, title := s.title, episodes := s.episodes.map deepCopyEpisode }

/-- `JSON.parse(JSON.stringify(allShows))`: the private snapshot. -/
def deepCopyShows (shows : List Show) : List Show :=
  shows.map deepCopyShow

/-- `episode.watched = true` on one episode record. -/
def watchEp (e : Episode) : Episode :=
  { e with watched := true }

/-- `episodes.find(e => e.id === epId)` followed by the in-place write
`epInCopy.watched = true` (a no-op when no episode matches). -/
def markFirstEp : List Episode → Nat → List Episode
  | [], _ => []
  | e :: es, epId =>
    if e.id = epId then watchEp e :: es
    else e :: markFirstEp es epId

/-- `showsCopy.find(s => s.id === showId)` followed by the episode write
inside that show (a no-op when no show matches). -/
def markWatched : List Show → Nat → Nat → List Show
  | [], _, _ => []
  | s :: ss, showId, epId =>
    if s.id = showId then { s with episodes := markFirstEp s.episodes epId } :: ss
    else s :: markWatched ss showId epId

/-- The builder's state: the caller's array, the snapshot (`showsCopy`),
the accumulated `queue` and the running `totalRuntime`. -/
structure BuildState where
  caller : List Show
  snapshot : List Show
  queue : List QueueEntry
  total : Int
deriving Repr

/-- The state update of one loop iteration: push the entry, add the runtime,
mark the picked episode watched inside the snapshot only. -/
def stepState (st : BuildState) (s : Show) (e : Episode) : BuildState :=
  { caller := st.caller
    snapshot := markWatched st.snapshot s.id e.id
    queue := st.queue ++ [mkQueueEntry s e]
    total := st.total + e.runtime }

/-- The builder's `while (totalRuntime < minutesGoal)` loop, fuel-indexed;
`k` counts the iterations so that iteration `k` consumes the draw `rand k`. -/
def cpqLoop (rand : Nat → Nat) (goal : Int) : Nat → Nat → BuildState → Option BuildState
  | 0, _, st => if st.total < goal then none else some st
  | fuel + 1, k, st =>
    if st.total < goal then
      match pickRandomEpisode (rand k) st.snapshot with
      | none => some st
      | some (s, e) => cpqLoop rand goal fuel (k + 1) (stepState st s e)
    else some st

/-- Episodes across the whole collection, used only to size the fuel. -/
def totalEpisodeCount (shows : List Show) : Nat :=
  (shows.map (fun s => s.episodes.length)).sum

/-- Fuel that covers every terminating run described by the specification. -/
def cpqFuel (goal : Int) (shows : List Show) : Nat :=
  goal.toNat + totalEpisodeCount shows + 1

/-- `generateCouchPotatoQueue(minutesGoal, shows)` down to the final builder
state (caller array, snapshot, queue, running total). -/
def generateCouchPotatoQueueFull (rand : Nat → Nat) (goal : Int) (shows : List Show) :
    Option BuildState :=
  cpqLoop rand goal (cpqFuel goal shows) 0
    { caller := shows, snapshot := deepCopyShows shows, queue := [], total := 0 }

/-- `generateCouchPotatoQueue(minutesGoal, shows)`: the returned
`{ episodes, totalRuntime, targetRuntime }` object. -/
def generateCouchPotatoQueue (rand : Nat → Nat) (goal : Int) (shows : List Show) :
    Option Queue :=
  (generateCouchPotatoQueueFull rand goal shows).map
    (fun st => { episodes := st.queue, totalRuntime := st.total, targetRuntime := goal })

/-! ### Derived notions used by the statements -/

/-- The (season, episode number) sort key of an episode. -/
def epKey (e : Episode) : Int × Int := (e.season, e.episodeNumber)

/-- The (season, episode number) key recorded in a queue entry. -/
def entryKey (q : QueueEntry) : Int × Int := (q.season, q.episodeNumber)

/-- Strict lexicographic order on (season, episode number) keys. -/
def keyLT (a b : Int × Int) : Prop := a.1 < b.1 ∨ (a.1 = b.1 ∧ a.2 < b.2)

/-- Entries of the same show occur in strictly increasing watch order. -/
def QueueOrdered (l : List QueueEntry) : Prop :=
  l.Pairwise (fun q1 q2 => q1.showId = q2.showId → keyLT (entryKey q1) (entryKey q2))

/-- No two entries carry the same episode id. -/
def QueueNoDupEpisodeIds (l : List QueueEntry) : Prop :=
  l.Pairwise (fun q1 q2 => q1.episodeId ≠ q2.episodeId)

/-- All episode ids across the whole collection, in order. -/
def globalEpIds (shows : List Show) : List Nat :=
  shows.flatMap (fun s => s.episodes.map (fun e => e.id))

/-- Every episode of the collection has a positive runtime. -/
def PosRuntimes (shows : List Show) : Prop :=
  ∀ s ∈ shows, ∀ e ∈ s.episodes, 0 < e.runtime

/-! ### Lemmas about the ordering and `getNextUnwatchedEpisode` -/

instance : IsRefl Episode epLEr where
  refl a := by simp [epLEr, epLE_iff]

lemma find?_min_of_sorted {l : List Episode} {a : Episode}
    (hs : List.Pairwise epLEr l) (h : l.find? (fun ep => !ep.watched) = some a) :
    ∀ b ∈ l, b.watched = false → epLEr a b := by
  induction l with
  | nil => simp at h
  | cons x xs ih =>
    rcases List.pairwise_cons.mp hs with ⟨hx, hxs⟩
    by_cases hw : x.watched
    · rw [List.find?_cons_of_neg _ (by simp [hw])] at h
      intro b hb hbw
      rcases List.mem_cons.mp hb with rfl | hb
      · exact absurd hw (by simp [hbw])
      · exact ih hxs h b hb hbw
    · rw [List.find?_cons_of_pos _ (by simp [hw])] at h
      cases h
      intro b hb hbw
      rcases List.mem_cons.mp hb with rfl | hb
      · exact @IsRefl.refl Episode epLEr _ b
      · exact hx b hb

lemma getNext_eq_none_iff (s : Show) :
    getNextUnwatchedEpisode s = none ↔ ∀ e ∈ s.episodes, e.watched = true := by
  unfold getNextUnwatchedEpisode
  by_cases h : s.episodes.isEmpty
  · rw [List.isEmpty_iff] at h
    simp [h]
  · simp only [h, if_neg, Bool.false_eq_true, not_false_iff, ite_false]
    rw [List.find?_eq_none]
    constructor
    · intro hall e he
      have := hall e ((List.mem_insertionSort epLEr).mpr he)
      simpa using this
    · intro hall e he
      have := hall e ((List.mem_insertionSort epLEr).mp he)
      simpa using this

lemma getNext_some {s : Show} {e : Episode} (h : getNextUnwatchedEpisode s = some e) :
    e ∈ s.episodes ∧ e.watched = false ∧
      ∀ x ∈ s.episodes, x.watched = false → epLE e x = true := by
  unfold getNextUnwatchedEpisode at h
  by_cases hemp : s.episodes.isEmpty
  · simp [hemp] at h
  · simp only [hemp, Bool.false_eq_true, not_false_iff, ite_false] at h
    refine ⟨(List.mem_insertionSort epLEr).mp (List.mem_of_find?_eq_some h), ?_, ?_⟩
    · have := List.find?_some h
      simpa using this
    · intro x hx hxw
      exact find?_min_of_sorted (List.sorted_insertionSort epLEr s.episodes) h x
        ((List.mem_insertionSort epLEr).mpr hx) hxw

/-! ### Lemmas about show picking -/

lemma showHasUnwatched_false_iff (s : Show) :
    showHasUnwatched s = false ↔ ∀ e ∈ s.episodes, e.watched = true := by
  simp [showHasUnwatched]

lemma showHasUnwatched_true_iff (s : Show) :
    showHasUnwatched s = true ↔ ∃ e ∈ s.episodes, e.watched = false := by
  simp [showHasUnwatched]

lemma pickShow_eq_none_iff (r : Nat) (shows : List Show) :
    pickRandomShowWithUnwatchedEpisodes r shows = none ↔
      ∀ s ∈ shows, showHasUnwatched s = false := by
  unfold pickRandomShowWithUnwatchedEpisodes
  by_cases h0 : shows.isEmpty
  · rw [List.isEmpty_iff] at h0
    simp [h0]
  · simp only [h0, Bool.false_eq_true, not_false_iff, ite_false]
    by_cases h1 : (shows.filter showHasUnwatched).isEmpty
    · rw [List.isEmpty_iff] at h1
      simp only [h1, List.isEmpty_nil, ite_true, true_iff]
      intro s hs
      by_contra hcon
      have : s ∈ shows.filter showHasUnwatched :=
        List.mem_filter.mpr ⟨hs, by simpa using hcon⟩
      simp [h1] at this
    · rw [List.isEmpty_iff] at h1
      simp only [List.isEmpty_iff, h1, ite_false]
      have hlen : 0 < (shows.filter showHasUnwatched).length :=
        List.length_pos.mpr h1
      have hlt : r % (shows.filter showHasUnwatched).length <
          (shows.filter showHasUnwatched).length := Nat.mod_lt _ hlen
      rw [List.getElem?_eq_getElem hlt]
      simp only [Option.some_ne_none, false_iff, not_forall]
      have hmem := List.getElem_mem hlt
      have := (List.mem_filter.mp hmem).2
      exact ⟨_, (List.mem_filter.mp hmem).1, by simp [this]⟩

lemma pickShow_some {r : Nat} {shows : List Show} {s : Show}
    (h : pickRandomShowWithUnwatchedEpisodes r shows = some s) :
    s ∈ shows ∧ showHasUnwatched s = true := by
  unfold pickRandomShowWithUnwatchedEpisodes at h
  by_cases h0 : shows.isEmpty
  · simp [h0] at h
  · simp only [h0, Bool.false_eq_true, not_false_iff, ite_false] at h
    by_cases h1 : (shows.filter showHasUnwatched).isEmpty
    · simp [h1] at h
    · simp only [h1, Bool.false_eq_true, not_false_iff, ite_false] at h
      have hmem : s ∈ shows.filter showHasUnwatched := by
        have := List.getElem?_mem h
        exact this
      exact ⟨(List.mem_filter.mp hmem).1, (List.mem_filter.mp hmem).2⟩

lemma pickShow_eq_get (shows : List Show) (i : Nat)
    (hi : i < (shows.filter showHasUnwatched).length) :
    pickRandomShowWithUnwatchedEpisodes i shows =
      some ((shows.filter showHasUnwatched).get ⟨i, hi⟩) := by
  unfold pickRandomShowWithUnwatchedEpisodes
  have hne : shows.filter showHasUnwatched ≠ [] := by
    intro hnil
    rw [hnil] at hi
    simp at hi
  have h0 : ¬shows.isEmpty = true := by
    rw [List.isEmpty_iff]
    intro hnil
    exact hne (by simp [hnil])
  simp only [h0, ite_false]
  have h1 : ¬(shows.filter showHasUnwatched).isEmpty = true := by
    rw [List.isEmpty_iff]
    exact hne
  simp only [h1, ite_false]
  rw [Nat.mod_eq_of_lt hi]
  exact List.getElem?_eq_getElem hi

/-! ### Lemmas about `pickRandomEpisode` -/

lemma pickRandomEpisode_eq_bind (r : Nat) (shows : List Show) :
    pickRandomEpisode r shows =
      (pickRandomShowWithUnwatchedEpisodes r shows).bind
        (fun t => (getNextUnwatchedEpisode t).map (fun e => (t, e))) := by
  unfold pickRandomEpisode
  split
  · rename_i hps
    rw [hps]
    rfl
  · rename_i t hps
    rw [hps]
    split
    · rename_i hn
      simp [hn]
    · rename_i e hn
      simp [hn]

lemma pickEp_eq_none_iff (r : Nat) (shows : List Show) :
    pickRandomEpisode r shows = none ↔
      ∀ s ∈ shows, ∀ e ∈ s.episodes, e.watched = true := by
  rw [pickRandomEpisode_eq_bind]
  cases hps : pickRandomShowWithUnwatchedEpisodes r shows with
  | none =>
    simp only [Option.none_bind, true_iff]
    rw [pickShow_eq_none_iff] at hps
    intro s hs
    exact (showHasUnwatched_false_iff s).mp (hps s hs)
  | some s =>
    rcases pickShow_some hps with ⟨hmem, hhas⟩
    rcases (showHasUnwatched_true_iff s).mp hhas with ⟨e, he, hew⟩
    simp only [Option.some_bind]
    cases hn : getNextUnwatchedEpisode s with
    | none =>
      rw [getNext_eq_none_iff] at hn
      exact absurd (hn e he) (by simp [hew])
    | some e2 =>
      simp only [Option.map_some', Option.some_ne_none, false_iff, not_forall]
      exact ⟨s, hmem, e, he, by simp [hew]⟩

lemma pickEp_some {r : Nat} {shows : List Show} {s : Show} {e : Episode}
    (h : pickRandomEpisode r shows = some (s, e)) :
    s ∈ shows ∧ e ∈ s.episodes ∧ e.watched = false ∧
      ∀ x ∈ s.episodes, x.watched = false → epLE e x = true := by
  rw [pickRandomEpisode_eq_bind] at h
  cases hps : pickRandomShowWithUnwatchedEpisodes r shows with
  | none => rw [hps] at h; simp at h
  | some s2 =>
    rw [hps] at h
    simp only [Option.some_bind] at h
    cases hn : getNextUnwatchedEpisode s2 with
    | none => rw [hn] at h; simp at h
    | some e2 =>
      rw [hn] at h
      simp only [Option.map_some', Option.some_inj, Prod.mk.injEq] at h
      rcases h with ⟨rfl, rfl⟩
      rcases pickShow_some hps with ⟨hmem, _⟩
      rcases getNext_some hn with ⟨he, hw, hmin⟩
      exact ⟨hmem, he, hw, hmin⟩

/-! ### The deep copy is deep-equal to the original -/

lemma deepCopyEpisode_eq (e : Episode) : deepCopyEpisode e = e := rfl

lemma deepCopyShow_eq (s : Show) : deepCopyShow s = s := by
  have h : deepCopyEpisode = id := rfl
  unfold deepCopyShow
  rw [h, List.map_id]

lemma deepCopyShows_eq (shows : List Show) : deepCopyShows shows = shows := by
  unfold deepCopyShows
  rw [List.map_congr_left (fun s _ => deepCopyShow_eq s)]
  simp

/-! ### Lemmas about virtual marking -/

lemma markFirstEp_corr {es : List Episode} {eid : Nat} :
    ∀ x' ∈ markFirstEp es eid, ∃ x ∈ es, x' = x ∨ x' = watchEp x := by
  induction es with
  | nil => simp [markFirstEp]
  | cons a as ih =>
    intro x' hx'
    unfold markFirstEp at hx'
    by_cases ha : a.id = eid
    · simp only [ha, ite_true] at hx'
      rcases List.mem_cons.mp hx' with rfl | hx'
      · exact ⟨a, List.mem_cons_self a as, Or.inr rfl⟩
      · exact ⟨x', List.mem_cons_of_mem a hx', Or.inl rfl⟩
    · simp only [ha, ite_false] at hx'
      rcases List.mem_cons.mp hx' with rfl | hx'
      · exact ⟨x', List.mem_cons_self x' as, Or.inl rfl⟩
      · rcases ih x' hx' with ⟨x, hx, hcase⟩
        exact ⟨x, List.mem_cons_of_mem a hx, hcase⟩

lemma markFirstEp_map_id (es : List Episode) (eid : Nat) :
    (markFirstEp es eid).map (fun e => e.id) = es.map (fun e => e.id) := by
  induction es with
  | nil => simp [markFirstEp]
  | cons a as ih =>
    unfold markFirstEp
    by_cases ha : a.id = eid <;> simp [ha, ih, watchEp]

lemma markFirstEp_map_key (es : List Episode) (eid : Nat) :
    (markFirstEp es eid).map epKey = es.map epKey := by
  induction es with
  | nil => simp [markFirstEp]
  | cons a as ih =>
    unfold markFirstEp
    by_cases ha : a.id = eid <;> simp [ha, ih, watchEp, epKey]

lemma markFirstEp_marks {es : List Episode} {eid : Nat}
    (hnd : (es.map (fun e => e.id)).Nodup) {e : Episode}
    (he : e ∈ es) (hid : e.id = eid) :
    ∀ x' ∈ markFirstEp es eid, x'.id = eid → x' = watchEp e := by
  induction es with
  | nil => simp at he
  | cons a as ih =>
    simp only [List.map_cons, List.nodup_cons] at hnd
    intro x' hx' hx'id
    unfold markFirstEp at hx'
    by_cases ha : a.id = eid
    · have hae : a = e := by
        rcases List.mem_cons.mp he with h1 | h2
        · exact h1.symm
        · exfalso
          apply hnd.1
          have hmm : e.id ∈ as.map (fun e => e.id) := List.mem_map_of_mem _ h2
          rw [hid, ← ha] at hmm
          exact hmm
      rw [if_pos ha] at hx'
      rcases List.mem_cons.mp hx' with h1 | h2
      · rw [h1, hae]
      · exfalso
        apply hnd.1
        have hmm : x'.id ∈ as.map (fun e => e.id) := List.mem_map_of_mem _ h2
        rw [hx'id, ← ha] at hmm
        exact hmm
    · have he2 : e ∈ as := by
        rcases List.mem_cons.mp he with h1 | h2
        · exact absurd (by rw [← h1]; exact hid) ha
        · exact h2
      rw [if_neg ha] at hx'
      rcases List.mem_cons.mp hx' with h1 | h2
      · exact absurd (by rw [← h1]; exact hx'id) ha
      · exact ih hnd.2 he2 x' h2 hx'id

lemma markWatched_corr {shows : List Show} {sid eid : Nat} :
    ∀ t' ∈ markWatched shows sid eid,
      ∃ t ∈ shows, t' = t ∨ t' = { t with episodes := markFirstEp t.episodes eid } := by
  induction shows with
  | nil => simp [markWatched]
  | cons a as ih =>
    intro t' ht'
    unfold markWatched at ht'
    by_cases ha : a.id = sid
    · rw [if_pos ha] at ht'
      rcases List.mem_cons.mp ht' with h1 | h2
      · exact ⟨a, List.mem_cons_self a as, Or.inr h1⟩
      · exact ⟨t', List.mem_cons_of_mem a h2, Or.inl rfl⟩
    · rw [if_neg ha] at ht'
      rcases List.mem_cons.mp ht' with h1 | h2
      · exact ⟨a, List.mem_cons_self a as, Or.inl h1⟩
      · rcases ih t' h2 with ⟨t, ht, hcase⟩
        exact ⟨t, List.mem_cons_of_mem a ht, hcase⟩

lemma markWatched_map_id (shows : List Show) (sid eid : Nat) :
    (markWatched shows sid eid).map (fun s => s.id) = shows.map (fun s => s.id) := by
  induction shows with
  | nil => simp [markWatched]
  | cons a as ih =>
    unfold markWatched
    by_cases ha : a.id = sid <;> simp [ha, ih]

lemma markWatched_marks_show {shows : List Show} {sid eid : Nat}
    (hnd : (shows.map (fun s => s.id)).Nodup) {s : Show}
    (hs : s ∈ shows) (hid : s.id = sid) :
    ∀ t' ∈ markWatched shows sid eid, t'.id = sid →
      t' = { s with episodes := markFirstEp s.episodes eid } := by
  induction shows with
  | nil => simp at hs
  | cons a as ih =>
    simp only [List.map_cons, List.nodup_cons] at hnd
    intro t' ht' ht'id
    unfold markWatched at ht'
    by_cases ha : a.id = sid
    · have hae : a = s := by
        rcases List.mem_cons.mp hs with h1 | h2
        · exact h1.symm
        · exfalso
          apply hnd.1
          have hmm : s.id ∈ as.map (fun s => s.id) := List.mem_map_of_mem _ h2
          rw [hid, ← ha] at hmm
          exact hmm
      rw [if_pos ha] at ht'
      rcases List.mem_cons.mp ht' with h1 | h2
      · rw [h1, hae]
      · exfalso
        apply hnd.1
        have hmm : t'.id ∈ as.map (fun s => s.id) := List.mem_map_of_mem _ h2
        rw [ht'id, ← ha] at hmm
        exact hmm
    · have hs2 : s ∈ as := by
        rcases List.mem_cons.mp hs with h1 | h2
        · exact absurd (by rw [← h1]; exact hid) ha
        · exact h2
      rw [if_neg ha] at ht'
      rcases List.mem_cons.mp ht' with h1 | h2
      · exact absurd (by rw [← h1]; exact ht'id) ha
      · exact ih hnd.2 hs2 t' h2 ht'id

lemma markWatched_globalEpIds (shows : List Show) (sid eid : Nat) :
    globalEpIds (markWatched shows sid eid) = globalEpIds shows := by
  induction shows with
  | nil => rfl
  | cons a as ih =>
    have ih' : (markWatched as sid eid).flatMap (fun s => s.episodes.map (fun e => e.id)) =
        as.flatMap (fun s => s.episodes.map (fun e => e.id)) := ih
    unfold markWatched
    by_cases ha : a.id = sid
    · rw [if_pos ha]
      simp only [globalEpIds, List.flatMap_cons]
      rw [markFirstEp_map_id]
    · rw [if_neg ha]
      simp only [globalEpIds, List.flatMap_cons, ih']

/-! ### Loop lemmas -/

lemma cpqLoop_preserves (rand : Nat → Nat) (goal : Int) (P : BuildState → Prop)
    (hstep : ∀ st s e r, P st → pickRandomEpisode r st.snapshot = some (s, e) →
      P (stepState st s e)) :
    ∀ fuel k st st', P st → cpqLoop rand goal fuel k st = some st' → P st' := by
  intro fuel
  induction fuel with
  | zero =>
    intro k st st' hP h
    unfold cpqLoop at h
    by_cases hc : st.total < goal
    · rw [if_pos hc] at h
      simp at h
    · rw [if_neg hc] at h
      cases h
      exact hP
  | succ fuel ih =>
    intro k st st' hP h
    unfold cpqLoop at h
    by_cases hc : st.total < goal
    · rw [if_pos hc] at h
      cases hp : pickRandomEpisode (rand k) st.snapshot with
      | none =>
        rw [hp] at h
        cases h
        exact hP
      | some pr =>
        obtain ⟨s, e⟩ := pr
        rw [hp] at h
        exact ih (k + 1) (stepState st s e) st' (hstep st s e (rand k) hP hp) h
    · rw [if_neg hc] at h
      cases h
      exact hP

lemma cpqLoop_exit (rand : Nat → Nat) (goal : Int) :
    ∀ fuel k st st', cpqLoop rand goal fuel k st = some st' →
      goal ≤ st'.total ∨ ∀ s ∈ st'.snapshot, ∀ e ∈ s.episodes, e.watched = true := by
  intro fuel
  induction fuel with
  | zero =>
    intro k st st' h
    unfold cpqLoop at h
    by_cases hc : st.total < goal
    · rw [if_pos hc] at h
      simp at h
    · rw [if_neg hc] at h
      cases h
      exact Or.inl (by omega)
  | succ fuel ih =>
    intro k st st' h
    unfold cpqLoop at h
    by_cases hc : st.total < goal
    · rw [if_pos hc] at h
      cases hp : pickRandomEpisode (rand k) st.snapshot with
      | none =>
        rw [hp] at h
        cases h
        exact Or.inr ((pickEp_eq_none_iff (rand k) st.snapshot).mp hp)
      | some pr =>
        obtain ⟨s, e⟩ := pr
        rw [hp] at h
        exact ih (k + 1) (stepState st s e) st' h
    · rw [if_neg hc] at h
      cases h
      exact Or.inl (by omega)

lemma posRuntimes_mark {shows : List Show} {sid eid : Nat} (h : PosRuntimes shows) :
    PosRuntimes (markWatched shows sid eid) := by
  intro t' ht' e' he'
  rcases markWatched_corr t' ht' with ⟨t, ht, h1 | h1⟩
  · rw [h1] at he'
    exact h t ht e' he'
  · rw [h1] at he'
    rcases markFirstEp_corr e' he' with ⟨x, hx, h2 | h2⟩
    · rw [h2]
      exact h t ht x hx
    · rw [h2]
      show 0 < (watchEp x).runtime
      exact h t ht x hx

lemma cpqLoop_isSome (rand : Nat → Nat) (goal : Int) :
    ∀ fuel k st, PosRuntimes st.snapshot → (goal - st.total).toNat ≤ fuel →
      (cpqLoop rand goal fuel k st).isSome = true := by
  intro fuel
  induction fuel with
  | zero =>
    intro k st hpos hf
    unfold cpqLoop
    have hc : ¬ st.total < goal := by omega
    rw [if_neg hc]
    rfl
  | succ fuel ih =>
    intro k st hpos hf
    unfold cpqLoop
    by_cases hc : st.total < goal
    · rw [if_pos hc]
      cases hp : pickRandomEpisode (rand k) st.snapshot with
      | none => rfl
      | some pr =>
        obtain ⟨s, e⟩ := pr
        rcases pickEp_some hp with ⟨hsm, hem, _, _⟩
        have hrt : 0 < e.runtime := hpos s hsm e hem
        apply ih (k + 1) (stepState st s e)
        · exact posRuntimes_mark hpos
        · show (goal - (st.total + e.runtime)).toNat ≤ fuel
          omega
    · rw [if_neg hc]
      rfl

/-! ### Global episode-id uniqueness across shows -/

lemma globalEpIds_cross :
    ∀ (shows : List Show), (globalEpIds shows).Nodup →
      ∀ s ∈ shows, ∀ t ∈ shows, ∀ e ∈ s.episodes, ∀ x ∈ t.episodes,
        x.id = e.id → s = t ∧ x = e := by
  intro shows
  induction shows with
  | nil =>
    intro _ s hs
    simp at hs
  | cons u us ih =>
    intro hnd s hs t ht e he x hx hxe
    have hnd' : (u.episodes.map (fun e => e.id) ++ globalEpIds us).Nodup := by
      simpa [globalEpIds, List.flatMap_cons] using hnd
    rw [List.nodup_append] at hnd'
    obtain ⟨hndu, hndus, hdisj⟩ := hnd'
    have hmemR : ∀ w : Show, w ∈ us → ∀ y : Episode, y ∈ w.episodes →
        y.id ∈ globalEpIds us := by
      intro w hw y hy
      exact List.mem_flatMap.mpr ⟨w, hw, List.mem_map_of_mem _ hy⟩
    rcases List.mem_cons.mp hs with hs1 | hs2 <;> rcases List.mem_cons.mp ht with ht1 | ht2
    · have hst : s = t := by rw [hs1, ht1]
      refine ⟨hst, ?_⟩
      rw [hs1] at he
      rw [ht1] at hx
      exact List.inj_on_of_nodup_map hndu hx he hxe
    · exfalso
      rw [hs1] at he
      have h1 : e.id ∈ u.episodes.map (fun e2 => e2.id) := List.mem_map_of_mem _ he
      have h2 : x.id ∈ globalEpIds us := hmemR t ht2 x hx
      rw [hxe] at h2
      exact hdisj h1 h2
    · exfalso
      rw [ht1] at hx
      have h1 : x.id ∈ u.episodes.map (fun e2 => e2.id) := List.mem_map_of_mem _ hx
      have h2 : e.id ∈ globalEpIds us := hmemR s hs2 e he
      rw [← hxe] at h2
      exact hdisj h1 h2
    · exact ih hndus s hs2 t ht2 e he x hx hxe

/-! ### Invariants of the builder loop -/

lemma keyLT_of_epLE {e x : Episode} (h : epLE e x = true) (hne : epKey e ≠ epKey x) :
    keyLT (epKey e) (epKey x) := by
  rw [epLE_iff] at h
  have hne' : ¬(e.season = x.season ∧ e.episodeNumber = x.episodeNumber) := by
    intro hcon
    apply hne
    unfold epKey
    rw [hcon.1, hcon.2]
  have hgoal : e.season < x.season ∨
      (e.season = x.season ∧ e.episodeNumber < x.episodeNumber) := by
    omega
  exact hgoal

lemma markFirstEp_unwatched {es : List Episode} {eid : Nat} {x' : Episode}
    (hx' : x' ∈ markFirstEp es eid) (hw : x'.watched = false) : x' ∈ es := by
  rcases markFirstEp_corr x' hx' with ⟨x, hx, h1 | h1⟩
  · rw [h1]
    exact hx
  · rw [h1] at hw
    simp [watchEp] at hw

lemma globalEpIds_pershow {shows : List Show} (h : (globalEpIds shows).Nodup)
    {s : Show} (hs : s ∈ shows) : (s.episodes.map (fun e => e.id)).Nodup := by
  induction shows with
  | nil => simp at hs
  | cons u us ih =>
    have h' : (u.episodes.map (fun e => e.id) ++ globalEpIds us).Nodup := by
      simpa [globalEpIds, List.flatMap_cons] using h
    rw [List.nodup_append] at h'
    rcases List.mem_cons.mp hs with h1 | h2
    · rw [h1]
      exact h'.1
    · exact ih h'.2.1 h2

/-- Well-formedness of a snapshot for the in-show ordering argument:
distinct show ids, and per show distinct episode ids and distinct
(season, episode number) keys. -/
def SnapWF (snap : List Show) : Prop :=
  (snap.map (fun s => s.id)).Nodup ∧
  ∀ s ∈ snap, (s.episodes.map (fun e => e.id)).Nodup ∧ (s.episodes.map epKey).Nodup

lemma snapWF_mark {snap : List Show} {sid eid : Nat} (h : SnapWF snap) :
    SnapWF (markWatched snap sid eid) := by
  constructor
  · rw [markWatched_map_id]
    exact h.1
  · intro t' ht'
    rcases markWatched_corr t' ht' with ⟨t, ht, h1 | h1⟩
    · rw [h1]
      exact h.2 t ht
    · rw [h1]
      refine ⟨?_, ?_⟩
      · show ((markFirstEp t.episodes eid).map (fun e => e.id)).Nodup
        rw [markFirstEp_map_id]
        exact (h.2 t ht).1
      · show ((markFirstEp t.episodes eid).map epKey).Nodup
        rw [markFirstEp_map_key]
        exact (h.2 t ht).2

/-- Invariant used for in-show ordering of the queue. -/
def OrdInv (st : BuildState) : Prop :=
  SnapWF st.snapshot ∧ QueueOrdered st.queue ∧
  ∀ q ∈ st.queue, ∀ t ∈ st.snapshot, t.id = q.showId →
    ∀ x ∈ t.episodes, x.watched = false → keyLT (entryKey q) (epKey x)

lemma ordInv_step {st : BuildState} {s : Show} {e : Episode} {r : Nat}
    (hinv : OrdInv st) (hp : pickRandomEpisode r st.snapshot = some (s, e)) :
    OrdInv (stepState st s e) := by
  obtain ⟨hwf, hord, hlink⟩ := hinv
  rcases pickEp_some hp with ⟨hs, he, hew, hmin⟩
  refine ⟨snapWF_mark hwf, ?_, ?_⟩
  · show QueueOrdered (st.queue ++ [mkQueueEntry s e])
    unfold QueueOrdered
    rw [List.pairwise_append]
    refine ⟨hord, by simp, ?_⟩
    intro q hq q2 hq2
    rw [List.mem_singleton] at hq2
    rw [hq2]
    intro hid
    exact hlink q hq s hs hid.symm e he hew
  · intro q hq t' ht' htid x' hx' hx'w
    have hq' : q ∈ st.queue ++ [mkQueueEntry s e] := hq
    rw [List.mem_append] at hq'
    rcases hq' with hqm | hqm
    · rcases markWatched_corr t' ht' with ⟨t, ht, h1 | h1⟩
      · rw [h1] at htid hx'
        exact hlink q hqm t ht htid x' hx' hx'w
      · rw [h1] at htid hx'
        have hx'mem : x' ∈ t.episodes := markFirstEp_unwatched hx' hx'w
        exact hlink q hqm t ht htid x' hx'mem hx'w
    · rw [List.mem_singleton] at hqm
      rw [hqm] at htid ⊢
      have ht'eq := markWatched_marks_show hwf.1 hs rfl t' ht' htid
      rw [ht'eq] at hx'
      have hx'mem : x' ∈ s.episodes :=
        markFirstEp_unwatched hx' hx'w
      have hx'id : x'.id ≠ e.id := by
        intro hcon
        have hmk := markFirstEp_marks (hwf.2 s hs).1 he rfl x' hx' hcon
        rw [hmk] at hx'w
        simp [watchEp] at hx'w
      have hle : epLE e x' = true := hmin x' hx'mem hx'w
      have hkeyne : epKey e ≠ epKey x' := by
        intro hcon
        have hxe : x' = e := List.inj_on_of_nodup_map (hwf.2 s hs).2 hx'mem he hcon.symm
        exact hx'id (by rw [hxe])
      exact keyLT_of_epLE hle hkeyne

/-- Invariant used for episode-id freshness of the queue. -/
def IdInv (st : BuildState) : Prop :=
  (st.snapshot.map (fun s => s.id)).Nodup ∧
  (globalEpIds st.snapshot).Nodup ∧
  QueueNoDupEpisodeIds st.queue ∧
  ∀ q ∈ st.queue, ∀ t ∈ st.snapshot, ∀ x ∈ t.episodes, x.id = q.episodeId →
    x.watched = true

lemma idInv_step {st : BuildState} {s : Show} {e : Episode} {r : Nat}
    (hinv : IdInv st) (hp : pickRandomEpisode r st.snapshot = some (s, e)) :
    IdInv (stepState st s e) := by
  obtain ⟨hsid, hgid, hqnd, hlink⟩ := hinv
  rcases pickEp_some hp with ⟨hs, he, hew, _⟩
  have hpershow : (s.episodes.map (fun e2 => e2.id)).Nodup := globalEpIds_pershow hgid hs
  refine ⟨?_, ?_, ?_, ?_⟩
  · show ((markWatched st.snapshot s.id e.id).map (fun t => t.id)).Nodup
    rw [markWatched_map_id]
    exact hsid
  · show (globalEpIds (markWatched st.snapshot s.id e.id)).Nodup
    rw [markWatched_globalEpIds]
    exact hgid
  · show QueueNoDupEpisodeIds (st.queue ++ [mkQueueEntry s e])
    unfold QueueNoDupEpisodeIds
    rw [List.pairwise_append]
    refine ⟨hqnd, by simp, ?_⟩
    intro q hqm q2 hq2
    rw [List.mem_singleton] at hq2
    rw [hq2]
    intro hcon
    have hwt := hlink q hqm s hs e he hcon.symm
    rw [hew] at hwt
    exact Bool.false_ne_true hwt
  · intro q hqm t' ht' x' hx' hxid
    have hqm' : q ∈ st.queue ++ [mkQueueEntry s e] := hqm
    rw [List.mem_append] at hqm'
    rcases hqm' with hqm2 | hqm2
    · rcases markWatched_corr t' ht' with ⟨t, ht, h1 | h1⟩
      · rw [h1] at hx'
        exact hlink q hqm2 t ht x' hx' hxid
      · rw [h1] at hx'
        rcases markFirstEp_corr x' hx' with ⟨x, hx, h2 | h2⟩
        · rw [h2] at hxid ⊢
          exact hlink q hqm2 t ht x hx hxid
        · rw [h2]
          rfl
    · rw [List.mem_singleton] at hqm2
      rw [hqm2] at hxid
      by_cases hcase : t'.id = s.id
      · have ht'eq := markWatched_marks_show hsid hs rfl t' ht' hcase
        rw [ht'eq] at hx'
        have hmk := markFirstEp_marks hpershow he rfl x' hx' hxid
        rw [hmk]
        rfl
      · exfalso
        rcases markWatched_corr t' ht' with ⟨t, ht, h1 | h1⟩
        · rw [h1] at hx' hcase
          rcases globalEpIds_cross st.snapshot hgid s hs t ht e he x' hx' hxid
            with ⟨hst, _⟩
          exact hcase (by rw [← hst])
        · rw [h1] at hx' hcase
          rcases markFirstEp_corr x' hx' with ⟨x, hx, h2 | h2⟩
          · rw [h2] at hxid
            rcases globalEpIds_cross st.snapshot hgid s hs t ht e he x hx hxid
              with ⟨hst, _⟩
            exact hcase (by rw [← hst])
          · have hxid2 : x.id = e.id := by
              rw [h2] at hxid
              exact hxid
            rcases globalEpIds_cross st.snapshot hgid s hs t ht e he x hx hxid2
              with ⟨hst, _⟩
            exact hcase (by rw [← hst])

/-! ### Concrete data for witnesses and counterexamples -/

/-- Show A of the specification's worked example (one unwatched 30-minute
episode). -/
def demoShowA : Show := ⟨1, "A", [⟨10, 1, 1, "a1", 30, false⟩]⟩

/-- Show B of the specification's worked example (one unwatched 45-minute
episode). -/
def demoShowB : Show := ⟨2, "B", [⟨20, 1, 1, "b1", 45, false⟩]⟩

/-- The specification's worked example collection. -/
def demoShows : List Show := [demoShowA, demoShowB]

def demoEntryA : QueueEntry := ⟨1, "A", 10, 1, 1, "a1", 30, false⟩

def demoEntryB : QueueEntry := ⟨2, "B", 20, 1, 1, "b1", 45, false⟩

/-- The final builder state of `generateCouchPotatoQueue(60, demoShows)` with
the constant draw 0: both episodes picked, runtime 75. -/
def demoFinal : BuildState :=
  { caller := demoShows
    snapshot := [⟨1, "A", [⟨10, 1, 1, "a1", 30, true⟩]⟩,
                 ⟨2, "B", [⟨20, 1, 1, "b1", 45, true⟩]⟩]
    queue := [demoEntryA, demoEntryB]
    total := 75 }

/-- A show whose two episodes have distinct (season, episode number) keys but
share the episode id 7; the episode array stores (s1,e2) first. -/
def showC6 : Show := ⟨1, "A", [⟨7, 1, 2, "e2", 10, false⟩, ⟨7, 1, 1, "e1", 10, false⟩]⟩

def showsC6 : List Show := [showC6]

def entryC6 : QueueEntry := ⟨1, "A", 7, 1, 1, "e1", 10, false⟩

/-- Two shows that share the show id 1; only the second has an episode. -/
def showC7A : Show := ⟨1, "A", []⟩

def showC7B : Show := ⟨1, "B", [⟨42, 1, 1, "x", 10, false⟩]⟩

def showsC7 : List Show := [showC7A, showC7B]

def entryC7 : QueueEntry := ⟨1, "B", 42, 1, 1, "x", 10, false⟩

/-- The show used to witness C3: next unwatched is (s1,e5), not the watched
(s1,e3) before it nor the unwatched (s2,e1) after it. -/
def demoShowC3 : Show :=
  ⟨5, "C", [⟨30, 2, 1, "s2e1", 30, false⟩, ⟨31, 1, 3, "s1e3", 30, true⟩,
            ⟨32, 1, 5, "s1e5", 30, false⟩]⟩

/-- The loop returns the state unchanged as soon as the goal is met. -/
lemma cpqLoop_done (rand : Nat → Nat) (goal : Int) (fuel k : Nat) (st : BuildState)
    (hc : ¬ st.total < goal) : cpqLoop rand goal fuel k st = some st := by
  cases fuel with
  | zero =>
    unfold cpqLoop
    rw [if_neg hc]
  | succ fuel =>
    unfold cpqLoop
    rw [if_neg hc]

/-! ### The claims -/

/-- C1: for every target and collection of shows, queue generation leaves the
caller's `shows` argument deep-equal to its value before the call — the final
builder state still carries the caller's array unchanged, and the private
snapshot is a deep copy that is deep-equal to (but separate from) it. -/
theorem c1_generate_preserves_caller (rand : Nat → Nat) (goal : Int)
    (shows : List Show) (st' : BuildState)
    (h : generateCouchPotatoQueueFull rand goal shows = some st') :
    st'.caller = shows ∧ deepCopyShows shows = shows := by
  constructor
  · exact cpqLoop_preserves rand goal (fun st => st.caller = shows)
      (fun st s e r hP hp => hP) (cpqFuel goal shows) 0
      { caller := shows, snapshot := deepCopyShows shows, queue := [], total := 0 }
      st' rfl h
  · exact deepCopyShows_eq shows

/-- C1 witness: a concrete 60-minute build over the two demo shows. -/
theorem c1_witness : demoFinal.caller = demoShows ∧ deepCopyShows demoShows = demoShows :=
  c1_generate_preserves_caller (fun _ => 0) 60 demoShows demoFinal rfl

/-- C2: every build that returns satisfies: the total reaches the target, or
every snapshot episode is watched (supply exhausted); and the total is the
exact sum of the appended entries' full runtimes (no truncation of the final
pick). -/
theorem c2_total_reaches_target_or_exhausts (rand : Nat → Nat) (goal : Int)
    (shows : List Show) (st' : BuildState)
    (h : generateCouchPotatoQueueFull rand goal shows = some st') :
    (goal ≤ st'.total ∨ ∀ s ∈ st'.snapshot, ∀ e ∈ s.episodes, e.watched = true) ∧
    st'.total = (st'.queue.map (fun q => q.runtime)).sum := by
  constructor
  · exact cpqLoop_exit rand goal (cpqFuel goal shows) 0 _ st' h
  · exact cpqLoop_preserves rand goal
      (fun st => st.total = (st.queue.map (fun q => q.runtime)).sum)
      (fun st s e r hP hp => by
        show st.total + e.runtime =
          ((st.queue ++ [mkQueueEntry s e]).map (fun q => q.runtime)).sum
        rw [List.map_append, List.sum_append, ← hP]
        simp [mkQueueEntry]) (cpqFuel goal shows) 0
      { caller := shows, snapshot := deepCopyShows shows, queue := [], total := 0 }
      st' (by simp) h

/-- C2 witness: the demo build overshoots to 75 ≥ 60 and 75 = 30 + 45. -/
theorem c2_witness :
    ((60 : Int) ≤ demoFinal.total ∨
      ∀ s ∈ demoFinal.snapshot, ∀ e ∈ s.episodes, e.watched = true) ∧
    demoFinal.total = (demoFinal.queue.map (fun q => q.runtime)).sum :=
  c2_total_reaches_target_or_exhausts (fun _ => 0) 60 demoShows demoFinal rfl

/-- C9: a non-positive target makes the loop body never execute: the build
returns an empty entry list, total runtime 0 and the requested target. -/
theorem c9_nonpositive_target_empty_queue (rand : Nat → Nat) (goal : Int)
    (shows : List Show) (hgoal : goal ≤ 0) :
    generateCouchPotatoQueue rand goal shows =
      some { episodes := [], totalRuntime := 0, targetRuntime := goal } := by
  have hc : ¬ ((0 : Int) < goal) := by omega
  unfold generateCouchPotatoQueue generateCouchPotatoQueueFull
  rw [cpqLoop_done rand goal (cpqFuel goal shows) 0
    { caller := shows, snapshot := deepCopyShows shows, queue := [], total := 0 } hc]
  rfl

/-- C9 witness: target 0 over the demo shows. -/
theorem c9_witness :
    generateCouchPotatoQueue (fun _ => 0) 0 demoShows = some ⟨[], 0, 0⟩ :=
  c9_nonpositive_target_empty_queue (fun _ => 0) 0 demoShows (by omega)

/-- C10: the single-episode pick returns absent exactly when
`hasUnwatchedEpisodes` says there is nothing to watch, for every draw. -/
theorem c10_pickRandomEpisode_none_iff (r : Nat) (shows : List Show) :
    pickRandomEpisode r shows = none ↔ hasUnwatchedEpisodes shows = false := by
  rw [pickEp_eq_none_iff]
  unfold hasUnwatchedEpisodes
  by_cases h0 : shows.isEmpty
  · rw [List.isEmpty_iff] at h0
    simp [h0]
  · simp only [h0, Bool.false_eq_true, not_false_iff, ite_false]
    rw [List.any_eq_false]
    constructor
    · intro h s hs
      rw [Bool.not_eq_true, showHasUnwatched_false_iff]
      exact h s hs
    · intro h s hs
      have h2 := h s hs
      rw [Bool.not_eq_true, showHasUnwatched_false_iff] at h2
      exact h2

/-- C3: `getNextUnwatchedEpisode` returns an unwatched episode of the show
that is earliest in (season asc, episode number asc) order among the
unwatched ones, and returns absent exactly when the show has no episodes or
all are watched; the embedding sorts a copied array and performs no write. -/
theorem c3_getNextUnwatchedEpisode_spec (s : Show) :
    (∀ e, getNextUnwatchedEpisode s = some e →
      e ∈ s.episodes ∧ e.watched = false ∧
        ∀ x ∈ s.episodes, x.watched = false →
          e.season < x.season ∨
            (e.season = x.season ∧ e.episodeNumber ≤ x.episodeNumber)) ∧
    (getNextUnwatchedEpisode s = none ↔
      s.episodes = [] ∨ ∀ e ∈ s.episodes, e.watched = true) := by
  constructor
  · intro e h
    rcases getNext_some h with ⟨hmem, hw, hmin⟩
    refine ⟨hmem, hw, ?_⟩
    intro x hx hxw
    have := hmin x hx hxw
    rw [epLE_iff] at this
    exact this
  · rw [getNext_eq_none_iff]
    constructor
    · intro h
      exact Or.inr h
    · intro h
      rcases h with h | h
      · intro e he
        rw [h] at he
        simp at he
      · exact h

/-- C3 witness: in `demoShowC3` the next unwatched episode is (s1,e5) —
after the watched (s1,e3), before the unwatched (s2,e1). -/
theorem c3_witness :
    (⟨32, 1, 5, "s1e5", 30, false⟩ : Episode) ∈ demoShowC3.episodes ∧
    (⟨32, 1, 5, "s1e5", 30, false⟩ : Episode).watched = false ∧
    ∀ x ∈ demoShowC3.episodes, x.watched = false →
      (⟨32, 1, 5, "s1e5", 30, false⟩ : Episode).season < x.season ∨
        ((⟨32, 1, 5, "s1e5", 30, false⟩ : Episode).season = x.season ∧
          (⟨32, 1, 5, "s1e5", 30, false⟩ : Episode).episodeNumber ≤ x.episodeNumber) :=
  (c3_getNextUnwatchedEpisode_spec demoShowC3).1 _ rfl

/-- C4: the show pick is absent exactly when no show has an unwatched
episode, and a returned show always has at least one unwatched episode; both
empty cases are values, not errors, since the embedding is total. -/
theorem c4_pickShow_absent_iff (r : Nat) (shows : List Show) :
    (pickRandomShowWithUnwatchedEpisodes r shows = none ↔
      ∀ s ∈ shows, ∀ e ∈ s.episodes, e.watched = true) ∧
    (∀ s, pickRandomShowWithUnwatchedEpisodes r shows = some s →
      ∃ e ∈ s.episodes, e.watched = false) := by
  constructor
  · rw [pickShow_eq_none_iff]
    constructor
    · intro h s hs
      exact (showHasUnwatched_false_iff s).mp (h s hs)
    · intro h s hs
      exact (showHasUnwatched_false_iff s).mpr (h s hs)
  · intro s h
    exact (showHasUnwatched_true_iff s).mp (pickShow_some h).2

/-- C4 witness: the pick with draw 0 over the demo shows returns show A,
which indeed has an unwatched episode. -/
theorem c4_witness : ∃ e ∈ demoShowA.episodes, e.watched = false :=
  (c4_pickShow_absent_iff 0 demoShows).2 demoShowA rfl

/-- C5: with `N` eligible shows, the map from the drawn index to the returned
show is the indexing of the eligible-filtered list — defined on every index
below `N`, surjective onto the eligible shows, and injective when the
eligible shows are pairwise distinct — so a uniform draw selects each
eligible show with probability 1/N, independent of episode counts or
runtimes. -/
theorem c5_pickShow_uniform (shows : List Show) (i : Nat)
    (hi : i < (shows.filter showHasUnwatched).length) :
    pickRandomShowWithUnwatchedEpisodes i shows =
      some ((shows.filter showHasUnwatched).get ⟨i, hi⟩) ∧
    (∀ s ∈ shows.filter showHasUnwatched,
      ∃ j : Nat, ∃ hj : j < (shows.filter showHasUnwatched).length,
        pickRandomShowWithUnwatchedEpisodes j shows = some s) ∧
    ((shows.filter showHasUnwatched).Nodup →
      ∀ j : Nat, ∀ hj : j < (shows.filter showHasUnwatched).length,
        (shows.filter showHasUnwatched).get ⟨i, hi⟩ =
          (shows.filter showHasUnwatched).get ⟨j, hj⟩ → i = j) := by
  refine ⟨pickShow_eq_get shows i hi, ?_, ?_⟩
  · intro s hs
    rcases List.mem_iff_get.mp hs with ⟨⟨j, hj⟩, hget⟩
    refine ⟨j, hj, ?_⟩
    rw [pickShow_eq_get shows j hj, hget]
  · intro hnd j hj hget
    have h2 : (⟨i, hi⟩ : Fin (shows.filter showHasUnwatched).length) = ⟨j, hj⟩ :=
      (List.Nodup.get_inj_iff hnd).mp hget
    exact congrArg Fin.val h2

/-- C5 witness: both demo shows are eligible; draw 1 returns the second. -/
theorem c5_witness :
    pickRandomShowWithUnwatchedEpisodes 1 demoShows =
      some ((demoShows.filter showHasUnwatched).get ⟨1, by decide⟩) :=
  (c5_pickShow_uniform demoShows 1 (by decide)).1

/-- C8: when every episode has positive runtime the builder's loop
terminates — with the fuel `cpqFuel` the run always returns a queue. -/
theorem c8_loop_terminates (rand : Nat → Nat) (goal : Int) (shows : List Show)
    (hpos : PosRuntimes shows) :
    (generateCouchPotatoQueue rand goal shows).isSome = true := by
  unfold generateCouchPotatoQueue generateCouchPotatoQueueFull
  rw [Option.isSome_map']
  apply cpqLoop_isSome
  · show PosRuntimes (deepCopyShows shows)
    rw [deepCopyShows_eq]
    exact hpos
  · show (goal - 0).toNat ≤ cpqFuel goal shows
    unfold cpqFuel
    omega

/-- C8 witness: the demo build returns. -/
theorem c8_witness : (generateCouchPotatoQueue (fun _ => 0) 60 demoShows).isSome = true :=
  c8_loop_terminates (fun _ => 0) 60 demoShows (by unfold PosRuntimes; decide)

/-- C6 counterexample: in `showsC6` the single show's episodes have pairwise
distinct (season, episode number) keys, yet the 15-minute build emits the
entry (s1,e1) twice for that show — the claim's hypothesis does not rule out
duplicate episode ids, and marking by id flips the wrong copy. -/
theorem c6_counterexample :
    (∀ s ∈ showsC6, (s.episodes.map epKey).Nodup) ∧
    generateCouchPotatoQueue (fun _ => 0) 15 showsC6 =
      some ⟨[entryC6, entryC6], 20, 15⟩ ∧
    ¬ QueueOrdered [entryC6, entryC6] := by
  refine ⟨by decide, rfl, ?_⟩
  intro h
  unfold QueueOrdered at h
  have h1 := (List.pairwise_cons.mp h).1 entryC6 (List.mem_singleton.mpr rfl) rfl
  unfold keyLT at h1
  rcases h1 with h1 | h1
  · exact lt_irrefl _ h1
  · exact lt_irrefl _ h1.2

/-- C6 (amended): if additionally the show ids are pairwise distinct and each
show's episode ids are pairwise distinct, then any two queue entries of the
same show appear in strictly increasing (season, episode number) order, for
every random choice sequence. -/
theorem c6_amended_queue_in_show_ordered (rand : Nat → Nat) (goal : Int)
    (shows : List Show) (st' : BuildState)
    (hsid : (shows.map (fun s => s.id)).Nodup)
    (hwf : ∀ s ∈ shows,
      (s.episodes.map (fun e => e.id)).Nodup ∧ (s.episodes.map epKey).Nodup)
    (h : generateCouchPotatoQueueFull rand goal shows = some st') :
    QueueOrdered st'.queue := by
  have hinv : OrdInv
      { caller := shows, snapshot := deepCopyShows shows, queue := [], total := 0 } := by
    refine ⟨?_, ?_, ?_⟩
    · show SnapWF (deepCopyShows shows)
      rw [deepCopyShows_eq]
      exact ⟨hsid, hwf⟩
    · exact List.Pairwise.nil
    · intro q hq
      simp at hq
  exact (cpqLoop_preserves rand goal OrdInv
    (fun st s e r hP hp => ordInv_step hP hp) (cpqFuel goal shows) 0 _ st' hinv h).2.1

/-- C6 witness: the demo build's queue is in-show ordered. -/
theorem c6_witness : QueueOrdered [demoEntryA, demoEntryB] :=
  c6_amended_queue_in_show_ordered (fun _ => 0) 60 demoShows demoFinal
    (by decide) (by decide) rfl

/-- C7 counterexample: in `showsC7` all episode ids are globally unique (there
is only one episode), yet two shows share the id 1, so the virtual marking
hits the wrong show and the 15-minute build emits episode id 42 twice. -/
theorem c7_counterexample :
    (globalEpIds showsC7).Nodup ∧
    generateCouchPotatoQueue (fun _ => 0) 15 showsC7 =
      some ⟨[entryC7, entryC7], 20, 15⟩ ∧
    ¬ QueueNoDupEpisodeIds [entryC7, entryC7] := by
  refine ⟨by decide, rfl, ?_⟩
  intro h
  unfold QueueNoDupEpisodeIds at h
  exact (List.pairwise_cons.mp h).1 entryC7 (List.mem_singleton.mpr rfl) rfl

/-- C7 (amended): if additionally the show ids are pairwise distinct (and the
episode ids globally unique, as the claim assumes), then no two queue entries
carry the same episode id: an episode marked virtually watched is never
picked again within the same build. -/
theorem c7_amended_no_duplicate_episode_ids (rand : Nat → Nat) (goal : Int)
    (shows : List Show) (st' : BuildState)
    (hsid : (shows.map (fun s => s.id)).Nodup)
    (hgid : (globalEpIds shows).Nodup)
    (h : generateCouchPotatoQueueFull rand goal shows = some st') :
    QueueNoDupEpisodeIds st'.queue := by
  have hinv : IdInv
      { caller := shows, snapshot := deepCopyShows shows, queue := [], total := 0 } := by
    refine ⟨?_, ?_, ?_, ?_⟩
    · show ((deepCopyShows shows).map (fun s => s.id)).Nodup
      rw [deepCopyShows_eq]
      exact hsid
    · show (globalEpIds (deepCopyShows shows)).Nodup
      rw [deepCopyShows_eq]
      exact hgid
    · exact List.Pairwise.nil
    · intro q hq
      simp at hq
  exact (cpqLoop_preserves rand goal IdInv
    (fun st s e r hP hp => idInv_step hP hp) (cpqFuel goal shows) 0 _ st' hinv h).2.2.1

/-- C7 witness: the demo build's queue has no duplicate episode id. -/
theorem c7_witness : QueueNoDupEpisodeIds [demoEntryA, demoEntryB] :=
  c7_amended_no_duplicate_episode_ids (fun _ => 0) 60 demoShows demoFinal
    (by decide) (by decide) rfl
